import Mathlib

/-!
Verification development for a MySQL→SQLite mirroring daemon
(`db_sync.py` / `main.py`): remote table discovery, schema translation,
incremental fetch-and-merge with idempotent insertion, per-table summary
maintenance and same-day temperature alerting, all driven by a scheduled
sync pass that owns a single global watermark.

The Python source is embedded shallowly:

* SQL values are modelled by `Val` (NULL / numeric / text).  Temperature
  readings are modelled as integers: the claims under study depend only on
  the ordering of readings against the configured threshold, and the
  remote `FD_TEMPERATURE` column is numeric (never text), so integer
  readings capture the relevant behaviour.
* Timestamps (`FD_LAST_TM`) travel as text in the canonical
  `YYYY-MM-DD HH:MM:SS` form, on which lexicographic string order agrees
  with chronological order; the MySQL comparison `FD_LAST_TM > watermark`
  is modelled by string `<` on that form, with SQL NULL excluded.
* The schema-translation block of `ensure_table` is embedded character by
  character over `List Char`: Python `str.split(tok)[0]` truncation,
  `str.replace`, `str.strip`, and the three `re.sub` calls
  (`COMMENT\s+'[^']*'`, `USING\s+BTREE`, `COLLATE\s+\w+`, all
  IGNORECASE).  Python's `\s` is the six ASCII whitespace characters;
  `\w` is modelled over ASCII word characters (the DDL strings the
  program manipulates are ASCII).
* The stateful parts (SQLite store, `mo_summary` table, the orchestrating
  `sync_job` with its pass-level try/except and global watermark) become
  explicit state-passing functions; a Python exception raised by a table's
  sync step is modelled by the `TableOutcome.raises` outcome, and the
  pass-level `except` by `runLoop`'s `Except` result.
-/

/-- A SQL value as it flows between MySQL, Python and SQLite:
NULL, a numeric reading, or a text value (timestamps, serial numbers). -/
inductive Val where
  | null : Val
  | int : Int → Val
  | str : String → Val
deriving DecidableEq, Repr

/-- A fetched row: the ordered tuple of column values returned by
`SELECT *` (positional, aligned with the cursor's column-name list). -/
abbrev RowT := List Val

/-- `r[cols.index c]`: the value of column `c` in positional row `r`,
given the column-name list `cols` (Python `col_names.index(...)` followed
by tuple indexing). -/
def colVal (cols : List String) (c : String) (r : RowT) : Val :=
  r.getD (cols.indexOf c) Val.null

/- ### Character-level machinery for the schema translation -/

/-- The six characters Python's `str.strip()` and the regex class `\s`
treat as whitespace (ASCII range). -/
def isPySpace (c : Char) : Bool :=
  c = ' ' || c = '\t' || c = '\n' || c = '\x0d' || c = '\x0b' || c = '\x0c'

/-- A regex `\w` word character, over ASCII: letter, digit or underscore. -/
def isWordChar (c : Char) : Bool :=
  c.isAlphanum || c = '_'

/-- ASCII case-insensitive character comparison (re.IGNORECASE). -/
def lowEq (a b : Char) : Bool :=
  a.toLower = b.toLower

/-- Match the literal `pat` case-insensitively at the head of `s`,
returning the remainder after the match. -/
def ciPrefix : List Char → List Char → Option (List Char)
  | [], s => some s
  | _ :: _, [] => none
  | p :: ps, c :: cs => if lowEq p c then ciPrefix ps cs else none

/-- Match the literal `pat` case-sensitively at the head of `s`
(`str.replace` semantics), returning the remainder. -/
def litMatch (pat : List Char) (s : List Char) : Option (List Char) :=
  if pat.isPrefixOf s then some (s.drop pat.length) else none

/-- Match `COMMENT\s+'[^']*'` (IGNORECASE) at the head of `s`.  `\s+` and
`[^']*` are deterministic here: `\s` never matches a quote, so no
backtracking arises. -/
def matchComment (s : List Char) : Option (List Char) :=
  (ciPrefix "COMMENT".data s).bind fun r1 =>
    if (r1.takeWhile isPySpace).isEmpty then none
    else
      match r1.dropWhile isPySpace with
      | '\'' :: r2 =>
        match r2.dropWhile (fun c => c ≠ '\'') with
        | '\'' :: r3 => some r3
        | _ => none
      | _ => none

/-- Match `USING\s+BTREE` (IGNORECASE) at the head of `s`. -/
def matchUsingBtree (s : List Char) : Option (List Char) :=
  (ciPrefix "USING".data s).bind fun r1 =>
    if (r1.takeWhile isPySpace).isEmpty then none
    else ciPrefix "BTREE".data (r1.dropWhile isPySpace)

/-- Match `COLLATE\s+\w+` (IGNORECASE, greedy `\w+`) at the head of `s`. -/
def matchCollate (s : List Char) : Option (List Char) :=
  (ciPrefix "COLLATE".data s).bind fun r1 =>
    if (r1.takeWhile isPySpace).isEmpty then none
    else
      let r2 := r1.dropWhile isPySpace
      if (r2.takeWhile isWordChar).isEmpty then none
      else some (r2.dropWhile isWordChar)

/-- Left-to-right, non-overlapping deletion of every match of `m`
(`re.sub(pattern, "", s)` / `str.replace(pat, "")`).  The fuel starts at
the string's length; every matcher used here consumes at least one
character, so the fuel never runs out on the strings it is applied to. -/
def subAllAux (m : List Char → Option (List Char)) : Nat → List Char → List Char
  | 0, s => s
  | _ + 1, [] => []
  | fuel + 1, c :: cs =>
    match m (c :: cs) with
    | some rest => subAllAux m fuel rest
    | none => c :: subAllAux m fuel cs

/-- Delete every match of `m` from `s`, scanning left to right. -/
def subAll (m : List Char → Option (List Char)) (s : List Char) : List Char :=
  subAllAux m s.length s

/-- Does any suffix of `s` start with a match of `m`? -/
def hasMatch (m : List Char → Option (List Char)) : List Char → Bool
  | [] => false
  | c :: cs => (m (c :: cs)).isSome || hasMatch m cs

/-- `s.split(pat)[0]` guarded by `if pat in s`: everything before the
first occurrence of `pat`, or `s` unchanged when `pat` does not occur. -/
def truncAt (pat : List Char) : List Char → List Char
  | [] => []
  | c :: cs => if pat.isPrefixOf (c :: cs) then [] else c :: truncAt pat cs

/-- Python `str.strip()`: drop leading and trailing whitespace. -/
def pyStrip (s : List Char) : List Char :=
  ((s.dropWhile isPySpace).reverse.dropWhile isPySpace).reverse

/-- The schema-translation block of `ensure_table` (db_sync.py lines
90-99), step by step in source order: truncate at `ENGINE=`,
`AUTO_INCREMENT`, `CHARSET=`, `ROW_FORMAT=`; delete `InnoDB` and strip;
delete quoted COMMENT clauses; delete `USING BTREE`; delete backticks;
delete `COLLATE <word>` clauses. -/
def translateL (s : List Char) : List Char :=
  let s1 := truncAt "ENGINE=".data s
  let s2 := truncAt "AUTO_INCREMENT".data s1
  let s3 := truncAt "CHARSET=".data s2
  let s4 := truncAt "ROW_FORMAT=".data s3
  let s5 := pyStrip (subAll (litMatch "InnoDB".data) s4)
  let s6 := subAll matchComment s5
  let s7 := subAll matchUsingBtree s6
  let s8 := subAll (litMatch "`".data) s7
  subAll matchCollate s8

/-- Schema translation on `String` (remote `SHOW CREATE TABLE` output →
SQLite-compatible DDL). -/
def translateCreateSql (s : String) : String :=
  ⟨translateL s.data⟩

/-- No leading whitespace (the head, if any, is not a Python space). -/
def noLeadWS (s : List Char) : Bool :=
  match s with
  | [] => true
  | c :: _ => !isPySpace c

/-- No trailing whitespace (the last character, if any, is not a Python
space). -/
def noTrailWS (s : List Char) : Bool :=
  match s.getLast? with
  | none => true
  | some c => !isPySpace c

/-- All the truncation/deletion stages of the translation find nothing to
do in `s`: none of the four truncation tokens occurs, no `InnoDB`, no
backtick, no whitespace at either end, and none of the three regexes
matches anywhere. -/
def translationClean (s : List Char) : Bool :=
  !hasMatch (litMatch "ENGINE=".data) s &&
  !hasMatch (litMatch "AUTO_INCREMENT".data) s &&
  !hasMatch (litMatch "CHARSET=".data) s &&
  !hasMatch (litMatch "ROW_FORMAT=".data) s &&
  !hasMatch (litMatch "InnoDB".data) s &&
  noLeadWS s && noTrailWS s &&
  !hasMatch matchComment s &&
  !hasMatch matchUsingBtree s &&
  !hasMatch (litMatch "`".data) s &&
  !hasMatch matchCollate s

/- ### Local store: tables, idempotent insertion, summary -/

/-- A mirrored local table: its frozen column order, the positions of its
primary-key columns (carried over from the remote `CREATE TABLE`), and its
rows. -/
structure Table where
  cols : List String
  pk : List Nat
  rows : List RowT
deriving DecidableEq, Repr

/-- The values of a row's primary-key columns (the conflict key of
`INSERT OR IGNORE`).  MySQL primary-key columns are NOT NULL, so on real
data these values are never `Val.null`. -/
def rowKey (pk : List Nat) (r : RowT) : List Val :=
  pk.map (fun i => r.getD i Val.null)

/-- Is a row with the same primary key already present? -/
def hasKeyRow (pk : List Nat) (tbl : List RowT) (r : RowT) : Bool :=
  tbl.any (fun x => rowKey pk x = rowKey pk r)

/-- One `INSERT OR IGNORE`: append the row unless its primary key is
already present (conflict → silently dropped). -/
def insertRow (pk : List Nat) (tbl : List RowT) (r : RowT) : List RowT :=
  if hasKeyRow pk tbl r then tbl else tbl ++ [r]

/-- `executemany("INSERT OR IGNORE ...", rows)`: insert the batch in
order, ignoring rows whose primary key is already present. -/
def insertRows (pk : List Nat) (tbl : List RowT) (rs : List RowT) : List RowT :=
  rs.foldl (insertRow pk) tbl

/-- Non-strict lexicographic order on character lists (by code point),
the order SQLite's BINARY collation induces on text values. -/
def strLeB : List Char → List Char → Bool
  | [], _ => true
  | _ :: _, [] => false
  | a :: as, b :: bs =>
    if a < b then true else if b < a then false else strLeB as bs

/-- SQLite comparison `a <= b` on non-NULL values: numerics compare by
value, any numeric sorts below any text, text compares lexicographically.
(Only the non-NULL cases matter: `MAX` skips NULLs.) -/
def valLe : Val → Val → Bool
  | Val.null, _ => true
  | _, Val.null => false
  | Val.int a, Val.int b => a ≤ b
  | Val.int _, Val.str _ => true
  | Val.str _, Val.int _ => false
  | Val.str a, Val.str b => strLeB a.data b.data

/-- SQL `MAX` over a column: NULLs are skipped; the result is NULL iff
every value is NULL (or the table is empty). -/
def sqlMax : List Val → Val
  | [] => Val.null
  | v :: vs =>
    let m := sqlMax vs
    if v = Val.null then m
    else if m = Val.null then v
    else if valLe v m then m else v

/-- SQL `COUNT(DISTINCT col)`: the number of distinct non-NULL values. -/
def distinctCount (vs : List Val) : Nat :=
  ((vs.filter (fun v => v ≠ Val.null)).dedup).length

/-- The SQLite predicate `FD_TEMPERATURE >= threshold` of
`update_summary`'s breach subquery: NULL readings compare to unknown and
are excluded.  (The remote temperature column is numeric, so text values
do not occur.) -/
def tempGE (v : Val) (th : Int) : Bool :=
  match v with
  | Val.int x => th ≤ x
  | _ => false

/-- One row of the `mo_summary` table (minus its `mo_name` key). -/
structure SummaryVals where
  deviceCount : Nat
  lastTime : Val
  warnCount : Nat
deriving DecidableEq, Repr

/-- The three aggregate subqueries of `update_summary` (db_sync.py lines
120-130), evaluated over the local table's entire current contents:
`COUNT(DISTINCT FD_INFO_SN)`, `MAX(FD_LAST_TM)`, and
`COUNT(DISTINCT FD_INFO_SN) ... WHERE FD_TEMPERATURE >= threshold`. -/
def summarize (cols : List String) (rows : List RowT) (th : Int) : SummaryVals :=
  { deviceCount := distinctCount (rows.map (colVal cols "FD_INFO_SN"))
    lastTime := sqlMax (rows.map (colVal cols "FD_LAST_TM"))
    warnCount := distinctCount
      ((rows.filter (fun r => tempGE (colVal cols "FD_TEMPERATURE" r) th)).map
        (colVal cols "FD_INFO_SN")) }

/-- `INSERT OR REPLACE` keyed on the association's name column: replace
the existing entry for `name`, or append a new one. -/
def upsertA {α : Type} (name : String) (v : α) : List (String × α) → List (String × α)
  | [] => [(name, v)]
  | (n, w) :: rest =>
    if n = name then (name, v) :: rest else (n, w) :: upsertA name v rest

/-- `update_summary`: recompute the three aggregates over the whole table
and replace that table's single `mo_summary` row. -/
def update_summary (name : String) (cols : List String) (rows : List RowT)
    (th : Int) (sm : List (String × SummaryVals)) : List (String × SummaryVals) :=
  upsertA name (summarize cols rows th) sm

/- ### Alert evaluation (the warning loop of `sync_table`) -/

/-- Python `str()` of a fetched value (timestamps arrive as their
canonical `YYYY-MM-DD HH:MM:SS` text). -/
def valStr : Val → String
  | Val.null => "None"
  | Val.int n => toString n
  | Val.str s => s

/-- `str(tm).split(" ")[0]`: the calendar-date prefix of a timestamp. -/
def dateOf (s : String) : String :=
  ⟨s.data.takeWhile (fun c => c ≠ ' ')⟩

/-- One emitted temperature warning (the fields of the log line). -/
structure AlertEvent where
  table : String
  sn : Val
  temp : Int
  tm : Val
deriving DecidableEq, Repr

/-- One iteration of the warning loop (db_sync.py lines 172-182): alert
iff the reading is non-NULL, at or above the threshold, and its
timestamp's date prefix equals today's date string. -/
def rowAlert (tn : String) (cn : List String) (th : Int) (today : String)
    (r : RowT) : Option AlertEvent :=
  let sn := r.getD (cn.indexOf "FD_INFO_SN") Val.null
  let temp := r.getD (cn.indexOf "FD_TEMPERATURE") Val.null
  let tm := r.getD (cn.indexOf "FD_LAST_TM") Val.null
  match temp with
  | Val.int v =>
    if th ≤ v then
      if dateOf (valStr tm) = today then some ⟨tn, sn, v, tm⟩ else none
    else none
  | _ => none

/-- The warnings emitted for one fetched batch: the loop runs only when
the fetched column-name list contains all of FD_INFO_SN, FD_TEMPERATURE
and FD_LAST_TM (`{...}.issubset(col_names)`), and emits at most one
warning per row. -/
def alertsOf (tn : String) (cn : List String) (rows : List RowT) (th : Int)
    (today : String) : List AlertEvent :=
  if "FD_INFO_SN" ∈ cn ∧ "FD_TEMPERATURE" ∈ cn ∧ "FD_LAST_TM" ∈ cn then
    rows.filterMap (rowAlert tn cn th today)
  else []

/- ### Remote source and one table's sync -/

/-- A remote MO table: its column-name list (as the cursor reports it),
its primary-key column positions, and its current rows. -/
structure RemoteTable where
  cols : List String
  pk : List Nat
  rows : List RowT
deriving DecidableEq, Repr

/-- The local SQLite state touched by the sync engine: the mirrored
tables and the `mo_summary` rows. -/
structure LocalDB where
  tbls : List (String × Table)
  summary : List (String × SummaryVals)
deriving DecidableEq, Repr

/-- Strict lexicographic order on character lists (by code point), the
order MySQL's comparison induces on canonical `YYYY-MM-DD HH:MM:SS`
timestamp strings (where it coincides with chronological order). -/
def strLtB : List Char → List Char → Bool
  | [], [] => false
  | [], _ :: _ => true
  | _ :: _, [] => false
  | a :: as, b :: bs =>
    if a < b then true else if b < a then false else strLtB as bs

/-- `FD_LAST_TM > watermark` for the MySQL fetch: a NULL timestamp is
excluded (SQL three-valued logic); a text timestamp in canonical form
compares lexicographically, which agrees with chronological order. -/
def tmAfter (wm : String) (v : Val) : Bool :=
  match v with
  | Val.str s => strLtB wm.data s.data
  | _ => false

/-- Stable ascending insertion for `ORDER BY FD_LAST_TM`. -/
def insertAsc (le : RowT → RowT → Bool) (r : RowT) : List RowT → List RowT
  | [] => [r]
  | x :: xs => if le r x then r :: x :: xs else x :: insertAsc le r xs

/-- Sort rows ascending by the given comparison. -/
def sortRows (le : RowT → RowT → Bool) (rows : List RowT) : List RowT :=
  rows.foldr (insertAsc le) []

/-- The fetch of `sync_table`:
`SELECT * FROM t WHERE FD_LAST_TM > wm ORDER BY FD_LAST_TM`. -/
def fetchSince (rt : RemoteTable) (wm : String) : List RowT :=
  sortRows
    (fun a b => valLe (colVal rt.cols "FD_LAST_TM" a) (colVal rt.cols "FD_LAST_TM" b))
    (rt.rows.filter (fun r => tmAfter wm (colVal rt.cols "FD_LAST_TM" r)))

/-- `ensure_table`: create the local mirror (translated schema: same
column order and primary key, no rows) only when it does not yet exist;
when it exists, only the idempotent index creation runs, which changes no
table contents and no summary row. -/
def ensure_table (db : LocalDB) (name : String) (rt : RemoteTable) : LocalDB :=
  match db.tbls.lookup name with
  | some _ => db
  | none => { db with tbls := upsertA name ⟨rt.cols, rt.pk, []⟩ db.tbls }

/-- `sync_table` (db_sync.py lines 133-186) as a state transformer.
`avail = false` models `get_mysql_conn()` returning `None` (pool/
connection failure): the table is skipped with count 0.  Otherwise the
table is ensured, rows strictly after the watermark are fetched, and —
only when the batch is non-empty — merged via `INSERT OR IGNORE`, the
summary recomputed over the whole merged table, and the warning loop run
over exactly the fetched batch.  Returns the new local state, `len(rows)`
and the emitted warnings. -/
def sync_table (avail : Bool) (rt : RemoteTable) (db : LocalDB) (name : String)
    (wm : String) (th : Int) (today : String) : LocalDB × Nat × List AlertEvent :=
  if avail then
    let db1 := ensure_table db name rt
    let rows := fetchSince rt wm
    if rows.isEmpty then (db1, 0, [])
    else
      let tbl := (db1.tbls.lookup name).getD ⟨rt.cols, rt.pk, []⟩
      let merged := insertRows tbl.pk tbl.rows rows
      let db2 : LocalDB :=
        { tbls := upsertA name ⟨tbl.cols, tbl.pk, merged⟩ db1.tbls
          summary := update_summary name tbl.cols merged th db1.summary }
      (db2, rows.length, alertsOf name rt.cols rows th today)
  else (db, 0, [])

/-- Case-insensitive `LIKE 'tb_tt_tboard_mo%'` (the catalog collation is
case-insensitive). -/
def moMatch (n : String) : Bool :=
  (ciPrefix "tb_tt_tboard_mo".data n.data).isSome

/-- `get_all_mo_tables`: the empty list when no connection can be
acquired, otherwise the catalog names matching the MO prefix pattern. -/
def get_all_mo_tables (avail : Bool) (catalog : List String) : List String :=
  if avail then catalog.filter moMatch else []

/- ### The orchestrating pass (`sync_job` in main.py) -/

/-- What one `sync_table(table, last_sync_time)` call does from the
orchestrator's point of view: return a row count, or raise an exception
(any error not absorbed inside `sync_table`, e.g. a failing
`SHOW CREATE TABLE`, a fetch error, or an insert into a table whose
creation failed). -/
inductive TableOutcome where
  | ok : Nat → TableOutcome
  | raises : TableOutcome
deriving DecidableEq, Repr

/-- How one pass ended: discovery empty (early return), all tables
processed, or aborted by an exception after the given per-table counts. -/
inductive PassResult where
  | emptyDiscovery : PassResult
  | completed : List Nat → PassResult
  | aborted : List Nat → PassResult
deriving DecidableEq, Repr

/-- The `for table in tables:` loop: process tables in order; the first
raising table throws out of the loop, carrying the counts of the tables
completed before it. -/
def runLoop : List TableOutcome → Except (List Nat) (List Nat)
  | [] => Except.ok []
  | TableOutcome.ok n :: rest =>
    match runLoop rest with
    | Except.ok l => Except.ok (n :: l)
    | Except.error l => Except.error (n :: l)
  | TableOutcome.raises :: _ => Except.error []

set_option linter.unusedVariables false in
/-- `sync_job` (main.py lines 18-37).  `tStart` is the wall clock when
the pass begins; `tEnd` is the value `datetime.now()` returns at the
watermark assignment after the loop (the clock is monotone, so
`tStart ≤ tEnd`).  Empty discovery returns early; an exception in the
loop is caught by the pass-level `except`, skipping the watermark
assignment; otherwise the watermark becomes `tEnd`.  Timestamps are
embedded as naturals (the `YYYY-MM-DD HH:MM:SS` strings compare
order-isomorphically). -/
def sync_job (tStart tEnd : Nat) (outs : List TableOutcome) (wm : Nat) :
    Nat × PassResult :=
  if outs = [] then (wm, PassResult.emptyDiscovery)
  else
    match runLoop outs with
    | Except.ok counts => (tEnd, PassResult.completed counts)
    | Except.error done => (wm, PassResult.aborted done)

/-- How many tables a pass attempted to process (an aborted pass
attempted the raising table too). -/
def processedCount : PassResult → Nat
  | PassResult.emptyDiscovery => 0
  | PassResult.completed l => l.length
  | PassResult.aborted l => l.length + 1

/-- One scheduled invocation of `sync_job`: its start and end clock
readings and its per-table outcomes. -/
structure PassIn where
  tStart : Nat
  tEnd : Nat
  outs : List TableOutcome
deriving DecidableEq, Repr

/-- The watermark after one pass. -/
def stepPass (wm : Nat) (p : PassIn) : Nat :=
  (sync_job p.tStart p.tEnd p.outs wm).1

/-- The watermark after a sequence of passes. -/
def runPasses (wm : Nat) (ps : List PassIn) : Nat :=
  ps.foldl stepPass wm

/-- Did some table of the pass raise? -/
def passFails (p : PassIn) : Bool :=
  p.outs.any (fun o => o = TableOutcome.raises)

/- ### Lemmas about the pass loop -/

/-- A loop in which no table raises returns all the counts. -/
theorem runLoop_map_ok (counts : List Nat) :
    runLoop (counts.map TableOutcome.ok) = Except.ok counts := by
  induction counts with
  | nil => rfl
  | cons n rest ih => simp [runLoop, ih]

/-- A loop whose first raising table comes after the `pre` counts throws
with exactly those counts. -/
theorem runLoop_pre_raises (pre : List Nat) (post : List TableOutcome) :
    runLoop (pre.map TableOutcome.ok ++ TableOutcome.raises :: post)
      = Except.error pre := by
  induction pre with
  | nil => rfl
  | cons n rest ih => simp [runLoop, ih]

/-- If some table of the loop raises, the loop throws. -/
theorem runLoop_error_of_raises (outs : List TableOutcome)
    (h : outs.any (fun o => o = TableOutcome.raises) = true) :
    ∃ e, runLoop outs = Except.error e := by
  induction outs with
  | nil => simp at h
  | cons o rest ih =>
    cases o with
    | raises => exact ⟨[], rfl⟩
    | ok n =>
      simp only [List.any_cons, Bool.or_eq_true, decide_eq_true_eq] at h
      rcases h with h | h
      · exact absurd h (by simp)
      · obtain ⟨e, he⟩ := ih h
        exact ⟨n :: e, by simp [runLoop, he]⟩

/-- One pass either leaves the watermark alone or sets it to the pass's
end-of-loop clock reading. -/
theorem stepPass_cases (wm : Nat) (p : PassIn) :
    stepPass wm p = wm ∨ stepPass wm p = p.tEnd := by
  unfold stepPass sync_job
  by_cases h : p.outs = []
  · simp [h]
  · simp only [h, if_false]
    cases hr : runLoop p.outs <;> simp

/-- A failing pass leaves the watermark unchanged. -/
theorem stepPass_of_fails (wm : Nat) (p : PassIn) (h : passFails p = true) :
    stepPass wm p = wm := by
  unfold passFails at h
  obtain ⟨e, he⟩ := runLoop_error_of_raises p.outs h
  unfold stepPass sync_job
  by_cases hne : p.outs = []
  · simp [hne]
  · simp [hne, he]

/-- After any pass sequence the watermark is the initial value or one of
the passes' end clocks. -/
theorem runPasses_mem (wm : Nat) (ps : List PassIn) :
    runPasses wm ps = wm ∨ ∃ q ∈ ps, runPasses wm ps = q.tEnd := by
  induction ps generalizing wm with
  | nil => exact Or.inl rfl
  | cons p rest ih =>
    have hstep := stepPass_cases wm p
    have hrec := ih (stepPass wm p)
    have hrun : runPasses wm (p :: rest) = runPasses (stepPass wm p) rest := rfl
    rcases hrec with h | ⟨q, hq, h⟩
    · rcases hstep with h2 | h2
      · exact Or.inl (by rw [hrun, h, h2])
      · exact Or.inr ⟨p, by simp, by rw [hrun, h, h2]⟩
    · exact Or.inr ⟨q, by simp [hq], by rw [hrun, h]⟩

/- ### C1: per-table error containment -/

/-- C1 counterexample.  Three tables are discovered; the second raises
inside `sync_table` (e.g. a failing `SHOW CREATE TABLE` or fetch).  The
pass-level `except` of `sync_job` catches the exception outside the
per-table loop, so only 2 of the 3 tables are ever processed: the third
discovered table is not processed in that pass, refuting the claim that
every other table still is. -/
theorem c1_counterexample :
    processedCount
        (sync_job 0 5 [TableOutcome.ok 2, TableOutcome.raises, TableOutcome.ok 3] 0).2 = 2
    ∧ [TableOutcome.ok 2, TableOutcome.raises, TableOutcome.ok 3].length = 3
    ∧ (sync_job 0 5 [TableOutcome.ok 2, TableOutcome.raises, TableOutcome.ok 3] 0).2
        = PassResult.aborted [2]
    ∧ (2 : Nat) ≠ 3 := by decide

/-- C1 as amended: only a remote connection-acquisition failure is
contained per table — `sync_table` then returns count 0 without touching
the local state and the loop continues.  Any exception actually raised by
`sync_table` while mirroring or fetching a table escapes the per-table
loop and is caught by the pass-level handler, so the tables after the
raising one are not processed in that pass and the watermark is left
unchanged. -/
theorem c1_per_table_containment (rt : RemoteTable) (db : LocalDB)
    (name wm today : String) (th : Int) (tS tE wmN : Nat) (pre : List Nat)
    (post : List TableOutcome) :
    sync_table false rt db name wm th today = (db, 0, [])
    ∧ sync_job tS tE (pre.map TableOutcome.ok ++ TableOutcome.raises :: post) wmN
        = (wmN, PassResult.aborted pre) := by
  constructor
  · rfl
  · have hne : pre.map TableOutcome.ok ++ TableOutcome.raises :: post ≠ [] := by
      cases pre <;> simp
    simp [sync_job, hne, runLoop_pre_raises]

/- ### C2: which instant the watermark advances to -/

/-- C2 counterexample.  A pass starts at clock 0, processes its single
table (zero new rows), and reaches the watermark assignment at clock 5:
the code stores `datetime.now()` evaluated after the loop, so the
watermark becomes 5, not the pass-start instant 0 the claim names. -/
theorem c2_counterexample :
    (sync_job 0 5 [TableOutcome.ok 0] 0).1 = 5 ∧ (5 : Nat) ≠ 0 := by decide

/-- C2 as amended: in a pass whose discovery is non-empty and in which
every table is processed without raising, the watermark is advanced —
after all tables are processed and regardless of any table's row count —
to the wall-clock reading taken at the end of the pass (the
`datetime.now()` after the loop), not to the pass-start instant. -/
theorem c2_watermark_pass_end (tS tE wm : Nat) (counts : List Nat)
    (h : counts ≠ []) :
    sync_job tS tE (counts.map TableOutcome.ok) wm
      = (tE, PassResult.completed counts) := by
  have hne : counts.map TableOutcome.ok ≠ [] := by simpa using h
  simp [sync_job, hne, runLoop_map_ok]

/-- Witness for C2's amended theorem at a concrete pass. -/
theorem c2_watermark_pass_end_witness :
    sync_job 0 5 ([0].map TableOutcome.ok) 0 = (5, PassResult.completed [0]) :=
  c2_watermark_pass_end 0 5 0 [0] (by decide)

/- ### C3: watermark monotonicity -/

/-- C3.  Under a monotone wall clock (the initial watermark precedes the
next pass's end clock and no earlier pass's end clock exceeds it), the
watermark never decreases from one pass to the next, and a pass that
fails — some table raising before the loop completes — leaves the
watermark exactly unchanged. -/
theorem c3_watermark_monotone (wm : Nat) (ps : List PassIn) (p : PassIn)
    (h1 : wm ≤ p.tEnd) (h2 : ∀ q ∈ ps, q.tEnd ≤ p.tEnd) :
    runPasses wm ps ≤ runPasses wm (ps ++ [p])
    ∧ (passFails p = true → runPasses wm (ps ++ [p]) = runPasses wm ps) := by
  have hrun : runPasses wm (ps ++ [p]) = stepPass (runPasses wm ps) p := by
    simp [runPasses, List.foldl_append]
  have hle : runPasses wm ps ≤ p.tEnd := by
    rcases runPasses_mem wm ps with h | ⟨q, hq, h⟩
    · rw [h]; exact h1
    · rw [h]; exact h2 q hq
  constructor
  · rw [hrun]
    rcases stepPass_cases (runPasses wm ps) p with h | h
    · rw [h]
    · rw [h]; exact hle
  · intro hf
    rw [hrun, stepPass_of_fails _ _ hf]

/-- Witness for C3 at a concrete two-pass history: the first pass
completes at clock 3, the second fails at clock 7. -/
theorem c3_watermark_monotone_witness :
    runPasses 0 [⟨0, 3, [TableOutcome.ok 1]⟩] ≤
        runPasses 0 ([⟨0, 3, [TableOutcome.ok 1]⟩] ++ [⟨3, 7, [TableOutcome.raises]⟩])
    ∧ (passFails ⟨3, 7, [TableOutcome.raises]⟩ = true →
        runPasses 0 ([⟨0, 3, [TableOutcome.ok 1]⟩] ++ [⟨3, 7, [TableOutcome.raises]⟩])
          = runPasses 0 [⟨0, 3, [TableOutcome.ok 1]⟩]) :=
  c3_watermark_monotone 0 [⟨0, 3, [TableOutcome.ok 1]⟩] ⟨3, 7, [TableOutcome.raises]⟩
    (by decide) (by decide)

/- ### Lemmas about `sync_table` and the summary store -/

/-- Looking up the upserted name finds exactly the new value
(`INSERT OR REPLACE` on the name key). -/
theorem upsertA_lookup {α : Type} (name : String) (v : α) (l : List (String × α)) :
    (upsertA name v l).lookup name = some v := by
  induction l with
  | nil => simp [upsertA, List.lookup]
  | cons hd rest ih =>
    obtain ⟨n, w⟩ := hd
    by_cases h : n = name
    · simp [upsertA, h, List.lookup]
    · have : (name == n) = false := by
        simp [Ne.symm h]
      simp [upsertA, h, List.lookup, this, ih]

/-- When the remote is reachable, the table is already mirrored and the
watermark-filtered fetch is empty, `sync_table` changes nothing and
returns count 0 with no warnings: `ensure_table` only re-ensures indexes,
and the whole merge/summary/alert block is guarded by `if rows:`. -/
theorem sync_table_no_new_rows (rt : RemoteTable) (db : LocalDB)
    (name wm today : String) (th : Int) (tbl : Table)
    (hl : db.tbls.lookup name = some tbl)
    (hf : fetchSince rt wm = []) :
    sync_table true rt db name wm th today = (db, 0, []) := by
  have he : ensure_table db name rt = db := by
    unfold ensure_table
    rw [hl]
  simp [sync_table, he, hf]

/- ### C9: zero new rows is a frame condition -/

/-- C9.  For an already-mirrored table, a pass in which the remote
returns zero new rows since the watermark leaves that table's summary row
(indeed the whole local state) untouched — the summary is not recomputed
or rewritten — and emits no warnings for that table. -/
theorem c9_zero_rows_frame (rt : RemoteTable) (db : LocalDB)
    (name wm today : String) (th : Int) (tbl : Table)
    (hl : db.tbls.lookup name = some tbl)
    (hf : fetchSince rt wm = []) :
    (sync_table true rt db name wm th today).1.summary = db.summary
    ∧ (sync_table true rt db name wm th today).2.2 = []
    ∧ sync_table true rt db name wm th today = (db, 0, []) := by
  rw [sync_table_no_new_rows rt db name wm today th tbl hl hf]
  exact ⟨rfl, rfl, rfl⟩

/-- Witness for C9: a mirrored table holding one old row, with a summary
row, and a remote whose only row is not newer than the watermark. -/
theorem c9_zero_rows_frame_witness :
    (sync_table true ⟨["FD_INFO_SN", "FD_TEMPERATURE", "FD_LAST_TM"], [2],
          [[Val.str "dev1", Val.int 85, Val.str "2026-10-10 00:00:00"]]⟩
        ⟨[("tb_tt_tboard_mo1", ⟨["FD_INFO_SN", "FD_TEMPERATURE", "FD_LAST_TM"], [2],
            [[Val.str "dev1", Val.int 85, Val.str "2026-10-10 00:00:00"]]⟩)],
          [("tb_tt_tboard_mo1", ⟨1, Val.str "2026-10-10 00:00:00", 1⟩)]⟩
        "tb_tt_tboard_mo1" "2026-10-11 00:00:00" 80 "2026-10-12").1.summary
      = [("tb_tt_tboard_mo1", ⟨1, Val.str "2026-10-10 00:00:00", 1⟩)]
    ∧ (sync_table true ⟨["FD_INFO_SN", "FD_TEMPERATURE", "FD_LAST_TM"], [2],
          [[Val.str "dev1", Val.int 85, Val.str "2026-10-10 00:00:00"]]⟩
        ⟨[("tb_tt_tboard_mo1", ⟨["FD_INFO_SN", "FD_TEMPERATURE", "FD_LAST_TM"], [2],
            [[Val.str "dev1", Val.int 85, Val.str "2026-10-10 00:00:00"]]⟩)],
          [("tb_tt_tboard_mo1", ⟨1, Val.str "2026-10-10 00:00:00", 1⟩)]⟩
        "tb_tt_tboard_mo1" "2026-10-11 00:00:00" 80 "2026-10-12").2.2 = [] :=
  ⟨(c9_zero_rows_frame
      ⟨["FD_INFO_SN", "FD_TEMPERATURE", "FD_LAST_TM"], [2],
        [[Val.str "dev1", Val.int 85, Val.str "2026-10-10 00:00:00"]]⟩
      ⟨[("tb_tt_tboard_mo1", ⟨["FD_INFO_SN", "FD_TEMPERATURE", "FD_LAST_TM"], [2],
          [[Val.str "dev1", Val.int 85, Val.str "2026-10-10 00:00:00"]]⟩)],
        [("tb_tt_tboard_mo1", ⟨1, Val.str "2026-10-10 00:00:00", 1⟩)]⟩
      "tb_tt_tboard_mo1" "2026-10-11 00:00:00" "2026-10-12" 80
      ⟨["FD_INFO_SN", "FD_TEMPERATURE", "FD_LAST_TM"], [2],
        [[Val.str "dev1", Val.int 85, Val.str "2026-10-10 00:00:00"]]⟩
      (by decide) (by decide)).1,
   (c9_zero_rows_frame
      ⟨["FD_INFO_SN", "FD_TEMPERATURE", "FD_LAST_TM"], [2],
        [[Val.str "dev1", Val.int 85, Val.str "2026-10-10 00:00:00"]]⟩
      ⟨[("tb_tt_tboard_mo1", ⟨["FD_INFO_SN", "FD_TEMPERATURE", "FD_LAST_TM"], [2],
          [[Val.str "dev1", Val.int 85, Val.str "2026-10-10 00:00:00"]]⟩)],
        [("tb_tt_tboard_mo1", ⟨1, Val.str "2026-10-10 00:00:00", 1⟩)]⟩
      "tb_tt_tboard_mo1" "2026-10-11 00:00:00" "2026-10-12" 80
      ⟨["FD_INFO_SN", "FD_TEMPERATURE", "FD_LAST_TM"], [2],
        [[Val.str "dev1", Val.int 85, Val.str "2026-10-10 00:00:00"]]⟩
      (by decide) (by decide)).2.1⟩

/- ### C4: "remote unavailable" vs "zero results" -/

/-- C4 counterexample.  Discovery with the remote unavailable returns the
very same value (the empty list) as discovery against a reachable remote
with no matching tables; and for row fetch, `sync_table` with the
connection pool unavailable returns the very same triple (unchanged
state, count 0, no warnings) as `sync_table` against a reachable remote
holding zero new rows since the watermark.  The two conditions are not
distinguishable in any return value, refuting the claim. -/
theorem c4_counterexample :
    get_all_mo_tables false ["tb_tt_tboard_mo1"] = get_all_mo_tables true []
    ∧ sync_table false
          ⟨["FD_LAST_TM"], [0], [[Val.str "2026-10-10 00:00:00"]]⟩
          ⟨[("tb_tt_tboard_mo1", ⟨["FD_LAST_TM"], [0],
              [[Val.str "2026-10-10 00:00:00"]]⟩)], []⟩
          "tb_tt_tboard_mo1" "2026-10-11 00:00:00" 80 "2026-10-12"
        = sync_table true
          ⟨["FD_LAST_TM"], [0], [[Val.str "2026-10-10 00:00:00"]]⟩
          ⟨[("tb_tt_tboard_mo1", ⟨["FD_LAST_TM"], [0],
              [[Val.str "2026-10-10 00:00:00"]]⟩)], []⟩
          "tb_tt_tboard_mo1" "2026-10-11 00:00:00" 80 "2026-10-12" := by decide

/-- C4 as amended: the code degrades to the *same* observable results on
remote unavailability as on zero results — discovery yields the empty
list in both cases and a table's sync yields (unchanged state, 0, no
warnings) in both — so callers necessarily treat the two alike (nothing
to do until the next pass); the conditions are distinguished only in the
log, not in any return value. -/
theorem c4_unavailable_equals_empty (cat : List String) (rt : RemoteTable)
    (db : LocalDB) (name wm today : String) (th : Int) (tbl : Table)
    (hcat : ∀ n ∈ cat, moMatch n = false)
    (hl : db.tbls.lookup name = some tbl)
    (hf : fetchSince rt wm = []) :
    get_all_mo_tables false cat = get_all_mo_tables true cat
    ∧ sync_table false rt db name wm th today
        = sync_table true rt db name wm th today := by
  constructor
  · unfold get_all_mo_tables
    simp only [if_true, if_false, Bool.false_eq_true, ite_false, ite_true]
    exact (List.filter_eq_nil_iff.mpr (by simpa using hcat)).symm
  · rw [sync_table_no_new_rows rt db name wm today th tbl hl hf]
    rfl

/-- Witness for C4's amended theorem: a catalog with one non-MO table, a
mirrored table and a remote with no rows newer than the watermark. -/
theorem c4_unavailable_equals_empty_witness :
    get_all_mo_tables false ["orders"] = get_all_mo_tables true ["orders"]
    ∧ sync_table false ⟨["FD_LAST_TM"], [0], []⟩
          ⟨[("tb_tt_tboard_mo1", ⟨["FD_LAST_TM"], [0], []⟩)], []⟩
          "tb_tt_tboard_mo1" "2026-10-11 00:00:00" 80 "2026-10-12"
        = sync_table true ⟨["FD_LAST_TM"], [0], []⟩
          ⟨[("tb_tt_tboard_mo1", ⟨["FD_LAST_TM"], [0], []⟩)], []⟩
          "tb_tt_tboard_mo1" "2026-10-11 00:00:00" 80 "2026-10-12" :=
  c4_unavailable_equals_empty ["orders"] ⟨["FD_LAST_TM"], [0], []⟩
    ⟨[("tb_tt_tboard_mo1", ⟨["FD_LAST_TM"], [0], []⟩)], []⟩
    "tb_tt_tboard_mo1" "2026-10-11 00:00:00" "2026-10-12" 80
    ⟨["FD_LAST_TM"], [0], []⟩ (by decide) (by decide) (by decide)

/- ### C6: idempotence of `INSERT OR IGNORE` -/

/-- Inserting a row whose key is already present is a no-op. -/
theorem insertRow_of_hasKey (pk : List Nat) (tbl : List RowT) (r : RowT)
    (h : hasKeyRow pk tbl r = true) : insertRow pk tbl r = tbl := by
  simp [insertRow, h]

/-- A key present before an insertion is still present after it. -/
theorem hasKeyRow_insertRow (pk : List Nat) (tbl : List RowT) (y x : RowT)
    (h : hasKeyRow pk tbl x = true) :
    hasKeyRow pk (insertRow pk tbl y) x = true := by
  unfold insertRow
  split
  · exact h
  · simp only [hasKeyRow, List.any_append] at h ⊢
    simp [h]

/-- After inserting `r`, the key of `r` is present. -/
theorem hasKeyRow_self_insert (pk : List Nat) (tbl : List RowT) (r : RowT) :
    hasKeyRow pk (insertRow pk tbl r) r = true := by
  unfold insertRow
  split
  · assumption
  · simp [hasKeyRow, List.any_append]

/-- A key present before a batch insertion is still present after it. -/
theorem hasKeyRow_insertRows (pk : List Nat) (tbl : List RowT) (rs : List RowT)
    (x : RowT) (h : hasKeyRow pk tbl x = true) :
    hasKeyRow pk (insertRows pk tbl rs) x = true := by
  induction rs generalizing tbl with
  | nil => exact h
  | cons r rest ih => exact ih (insertRow pk tbl r) (hasKeyRow_insertRow pk tbl r x h)

/-- After a batch insertion the key of every row of the batch is
present. -/
theorem hasKeyRow_after_insertRows (pk : List Nat) (tbl : List RowT)
    (rs : List RowT) : ∀ x ∈ rs, hasKeyRow pk (insertRows pk tbl rs) x = true := by
  induction rs generalizing tbl with
  | nil => intro x hx; cases hx
  | cons r rest ih =>
    intro x hx
    rcases List.mem_cons.mp hx with rfl | hx
    · exact hasKeyRow_insertRows pk (insertRow pk tbl x) rest x
        (hasKeyRow_self_insert pk tbl x)
    · exact ih (insertRow pk tbl r) x hx

/-- Inserting a batch all of whose keys are already present changes
nothing. -/
theorem insertRows_of_all_keys (pk : List Nat) (tbl : List RowT) (rs : List RowT)
    (h : ∀ x ∈ rs, hasKeyRow pk tbl x = true) : insertRows pk tbl rs = tbl := by
  induction rs with
  | nil => rfl
  | cons r rest ih =>
    have h1 : insertRow pk tbl r = tbl := insertRow_of_hasKey pk tbl r (h r (by simp))
    show insertRows pk (insertRow pk tbl r) rest = tbl
    rw [h1]
    exact ih (fun x hx => h x (by simp [hx]))

/-- C6.  `INSERT OR IGNORE` keyed on the table's primary key is
idempotent: delivering the same batch of rows twice leaves exactly the
table contents that one delivery produces, for every starting table and
every row batch. -/
theorem c6_insert_idempotent (pk : List Nat) (tbl : List RowT) (rs : List RowT) :
    insertRows pk (insertRows pk tbl rs) rs = insertRows pk tbl rs :=
  insertRows_of_all_keys pk (insertRows pk tbl rs) rs
    (hasKeyRow_after_insertRows pk tbl rs)

/- ### C7 and C10: alert evaluation -/

/-- Characters that compare strictly below in `strLtB` head position give
strict list order, so `strLtB` implies inequality. -/
theorem strLtB_ne_list (as bs : List Char) (h : strLtB as bs = true) : as ≠ bs := by
  induction as generalizing bs with
  | nil =>
    cases bs with
    | nil => simp [strLtB] at h
    | cons b bs => simp
  | cons a as ih =>
    cases bs with
    | nil => simp [strLtB] at h
    | cons b bs =>
      by_cases hab : a < b
      · intro he
        injection he with h1 _
        exact absurd (h1 ▸ hab) (lt_irrefl b)
      · by_cases hba : b < a
        · simp [strLtB, hab, hba] at h
        · have hEq : a = b := le_antisymm (le_of_not_lt hba) (le_of_not_lt hab)
          have h' : strLtB as bs = true := by
            simpa [strLtB, hab, hba] using h
          intro he
          injection he with _ h2
          exact ih bs h' h2

/-- A string strictly below another in the lexicographic order differs
from it. -/
theorem strLtB_ne (a b : String) (h : strLtB a.data b.data = true) : a ≠ b := by
  intro he
  exact strLtB_ne_list a.data b.data h (by rw [he])

/-- C7.  When the fetched column list carries the three needed columns,
the warning loop runs over exactly the batch, emitting at most one event
per row via `rowAlert`; a row whose timestamp's calendar date is strictly
before today's date string (in the lexicographic order that is
chronological order on canonical dates) never produces an event, even at
or above the threshold; and a row dated today with a non-NULL reading at
or above the threshold produces exactly the one event carrying its
fields. -/
theorem c7_alert_date_gating (tn : String) (cn : List String) (rows : List RowT)
    (th : Int) (today : String)
    (h1 : "FD_INFO_SN" ∈ cn) (h2 : "FD_TEMPERATURE" ∈ cn) (h3 : "FD_LAST_TM" ∈ cn) :
    alertsOf tn cn rows th today = rows.filterMap (rowAlert tn cn th today)
    ∧ (∀ r ∈ rows,
        strLtB (dateOf (valStr (r.getD (cn.indexOf "FD_LAST_TM") Val.null))).data
            today.data = true →
        rowAlert tn cn th today r = none)
    ∧ (∀ r ∈ rows, ∀ v : Int,
        r.getD (cn.indexOf "FD_TEMPERATURE") Val.null = Val.int v → th ≤ v →
        dateOf (valStr (r.getD (cn.indexOf "FD_LAST_TM") Val.null)) = today →
        rowAlert tn cn th today r
          = some ⟨tn, r.getD (cn.indexOf "FD_INFO_SN") Val.null, v,
              r.getD (cn.indexOf "FD_LAST_TM") Val.null⟩) := by
  refine ⟨by simp [alertsOf, h1, h2, h3], ?_, ?_⟩
  · intro r _ hlt
    have hne : dateOf (valStr (r.getD (cn.indexOf "FD_LAST_TM") Val.null)) ≠ today :=
      strLtB_ne _ _ hlt
    simp only [rowAlert]
    cases htemp : r.getD (cn.indexOf "FD_TEMPERATURE") Val.null with
    | null => rfl
    | str s => rfl
    | int v =>
      show (if th ≤ v then
          if dateOf (valStr (r.getD (cn.indexOf "FD_LAST_TM") Val.null)) = today then
            some (⟨tn, r.getD (cn.indexOf "FD_INFO_SN") Val.null, v,
              r.getD (cn.indexOf "FD_LAST_TM") Val.null⟩ : AlertEvent)
          else none
        else none) = none
      by_cases hv : th ≤ v
      · rw [if_pos hv, if_neg hne]
      · rw [if_neg hv]
  · intro r _ v htemp hv htoday
    simp only [rowAlert, htemp]
    show (if th ≤ v then
        if dateOf (valStr (r.getD (cn.indexOf "FD_LAST_TM") Val.null)) = today then
          some (⟨tn, r.getD (cn.indexOf "FD_INFO_SN") Val.null, v,
            r.getD (cn.indexOf "FD_LAST_TM") Val.null⟩ : AlertEvent)
        else none
      else none) = some ⟨tn, r.getD (cn.indexOf "FD_INFO_SN") Val.null, v,
        r.getD (cn.indexOf "FD_LAST_TM") Val.null⟩
    rw [if_pos hv, if_pos htoday]

/-- Witness for C7: in a two-row batch with threshold 80, the 85-degree
row dated yesterday yields no event and the 85-degree row dated today
yields exactly one. -/
theorem c7_alert_date_gating_witness :
    rowAlert "t" ["FD_INFO_SN", "FD_TEMPERATURE", "FD_LAST_TM"] 80 "2026-10-12"
        [Val.str "dev1", Val.int 85, Val.str "2026-10-11 23:00:00"] = none
    ∧ rowAlert "t" ["FD_INFO_SN", "FD_TEMPERATURE", "FD_LAST_TM"] 80 "2026-10-12"
        [Val.str "dev1", Val.int 85, Val.str "2026-10-12 01:00:00"]
      = some ⟨"t", Val.str "dev1", 85, Val.str "2026-10-12 01:00:00"⟩ :=
  ⟨(c7_alert_date_gating "t" ["FD_INFO_SN", "FD_TEMPERATURE", "FD_LAST_TM"]
      [[Val.str "dev1", Val.int 85, Val.str "2026-10-11 23:00:00"],
       [Val.str "dev1", Val.int 85, Val.str "2026-10-12 01:00:00"]] 80 "2026-10-12"
      (by decide) (by decide) (by decide)).2.1
      [Val.str "dev1", Val.int 85, Val.str "2026-10-11 23:00:00"] (by simp)
      (by decide),
   (c7_alert_date_gating "t" ["FD_INFO_SN", "FD_TEMPERATURE", "FD_LAST_TM"]
      [[Val.str "dev1", Val.int 85, Val.str "2026-10-11 23:00:00"],
       [Val.str "dev1", Val.int 85, Val.str "2026-10-12 01:00:00"]] 80 "2026-10-12"
      (by decide) (by decide) (by decide)).2.2
      [Val.str "dev1", Val.int 85, Val.str "2026-10-12 01:00:00"] (by simp)
      85 (by decide) (by decide) (by decide)⟩

/-- C10.  The warning loop is gated on the fetched column-name list
containing FD_INFO_SN, FD_TEMPERATURE and FD_LAST_TM: when any is
missing, the batch produces no events at all (though it may still be
merged); and even within an evaluated batch, a row whose reading value is
SQL NULL never produces an event. -/
theorem c10_alerts_need_columns (tn : String) (cn : List String)
    (rows : List RowT) (th : Int) (today : String) :
    (¬ ("FD_INFO_SN" ∈ cn ∧ "FD_TEMPERATURE" ∈ cn ∧ "FD_LAST_TM" ∈ cn) →
      alertsOf tn cn rows th today = [])
    ∧ ∀ r : RowT, r.getD (cn.indexOf "FD_TEMPERATURE") Val.null = Val.null →
        rowAlert tn cn th today r = none := by
  constructor
  · intro h
    simp [alertsOf, h]
  · intro r h
    simp only [rowAlert, h]

/-- Witness for C10: a batch from a table with none of the three columns
produces no events, and a NULL reading in a well-columned batch produces
none either. -/
theorem c10_alerts_need_columns_witness :
    alertsOf "t" ["FD_ID"] [[Val.int 99]] 80 "2026-10-12" = []
    ∧ rowAlert "t" ["FD_INFO_SN", "FD_TEMPERATURE", "FD_LAST_TM"] 80 "2026-10-12"
        [Val.str "dev1", Val.null, Val.str "2026-10-12 01:00:00"] = none :=
  ⟨(c10_alerts_need_columns "t" ["FD_ID"] [[Val.int 99]] 80 "2026-10-12").1
      (by decide),
   (c10_alerts_need_columns "t" ["FD_INFO_SN", "FD_TEMPERATURE", "FD_LAST_TM"]
      [] 80 "2026-10-12").2
      [Val.str "dev1", Val.null, Val.str "2026-10-12 01:00:00"] (by decide)⟩

/- ### C8: order lemmas for `sqlMax` and the summary aggregates -/

/-- `strLeB` is reflexive. -/
theorem strLeB_refl : ∀ as : List Char, strLeB as as = true := by
  intro as
  induction as with
  | nil => rfl
  | cons a as ih => simp [strLeB, lt_irrefl, ih]

/-- `strLeB` is total. -/
theorem strLeB_total : ∀ as bs : List Char,
    strLeB as bs = true ∨ strLeB bs as = true := by
  intro as
  induction as with
  | nil => intro bs; exact Or.inl rfl
  | cons a as ih =>
    intro bs
    cases bs with
    | nil => exact Or.inr rfl
    | cons b bs =>
      rcases lt_trichotomy a b with h | h | h
      · exact Or.inl (by simp [strLeB, h])
      · subst h
        rcases ih bs with h2 | h2
        · exact Or.inl (by simp [strLeB, lt_irrefl, h2])
        · exact Or.inr (by simp [strLeB, lt_irrefl, h2])
      · exact Or.inr (by simp [strLeB, h])

/-- `strLeB` is transitive. -/
theorem strLeB_trans : ∀ as bs cs : List Char,
    strLeB as bs = true → strLeB bs cs = true → strLeB as cs = true := by
  intro as
  induction as with
  | nil => intro bs cs _ _; rfl
  | cons a as ih =>
    intro bs cs h1 h2
    cases bs with
    | nil => simp [strLeB] at h1
    | cons b bs =>
      cases cs with
      | nil => simp [strLeB] at h2
      | cons c cs =>
        rcases lt_trichotomy a b with hab | hab | hab
        · rcases lt_trichotomy b c with hbc | hbc | hbc
          · simp [strLeB, lt_trans hab hbc]
          · subst hbc; simp [strLeB, hab]
          · simp [strLeB, lt_asymm hbc, hbc] at h2
        · subst hab
          have h1' : strLeB as bs = true := by
            simpa [strLeB, lt_irrefl] using h1
          rcases lt_trichotomy a c with hac | hac | hac
          · simp [strLeB, hac]
          · subst hac
            have h2' : strLeB bs cs = true := by
              simpa [strLeB, lt_irrefl] using h2
            simpa [strLeB, lt_irrefl] using ih bs cs h1' h2'
          · simp [strLeB, lt_asymm hac, hac] at h2
        · simp [strLeB, lt_asymm hab, hab] at h1

/-- `valLe` is reflexive on non-NULL values. -/
theorem valLe_refl (v : Val) (h : v ≠ Val.null) : valLe v v = true := by
  cases v with
  | null => exact absurd rfl h
  | int a => simp [valLe]
  | str a => simp [valLe, strLeB_refl]

/-- `valLe` is total on non-NULL values. -/
theorem valLe_total (a b : Val) (ha : a ≠ Val.null) (hb : b ≠ Val.null) :
    valLe a b = true ∨ valLe b a = true := by
  cases a with
  | null => exact absurd rfl ha
  | int x =>
    cases b with
    | null => exact absurd rfl hb
    | int y =>
      rcases Int.le_total x y with h | h
      · exact Or.inl (by simp [valLe, h])
      · exact Or.inr (by simp [valLe, h])
    | str y => exact Or.inl rfl
  | str x =>
    cases b with
    | null => exact absurd rfl hb
    | int y => exact Or.inr rfl
    | str y =>
      rcases strLeB_total x.data y.data with h | h
      · exact Or.inl (by simp [valLe, h])
      · exact Or.inr (by simp [valLe, h])

/-- `valLe` is transitive. -/
theorem valLe_trans (a b c : Val) (h1 : valLe a b = true) (h2 : valLe b c = true) :
    valLe a c = true := by
  cases a with
  | null => cases c <;> rfl
  | int x =>
    cases b with
    | null => simp [valLe] at h1
    | int y =>
      cases c with
      | null => simp [valLe] at h2
      | int z =>
        have hxy : x ≤ y := by simpa [valLe] using h1
        have hyz : y ≤ z := by simpa [valLe] using h2
        simp [valLe, le_trans hxy hyz]
      | str z => rfl
    | str y =>
      cases c with
      | null => simp [valLe] at h2
      | int z => simp [valLe] at h2
      | str z => rfl
  | str x =>
    cases b with
    | null => simp [valLe] at h1
    | int y => simp [valLe] at h1
    | str y =>
      cases c with
      | null => simp [valLe] at h2
      | int z => simp [valLe] at h2
      | str z =>
        have hxy : strLeB x.data y.data = true := by simpa [valLe] using h1
        have hyz : strLeB y.data z.data = true := by simpa [valLe] using h2
        simp [valLe, strLeB_trans x.data y.data z.data hxy hyz]

/-- `MAX` is NULL exactly when every value is NULL. -/
theorem sqlMax_eq_null (l : List Val) :
    sqlMax l = Val.null ↔ ∀ v ∈ l, v = Val.null := by
  induction l with
  | nil => simp [sqlMax]
  | cons v vs ih =>
    simp only [sqlMax]
    by_cases hv : v = Val.null
    · simp [hv, ih]
    · by_cases hm : sqlMax vs = Val.null
      · simp [hv, hm]
      · by_cases hle : valLe v (sqlMax vs) = true
        · simp [hv, hm, hle]
        · simp [hv, hm, hle]

/-- `MAX` of a column is NULL or one of the column's values. -/
theorem sqlMax_mem (l : List Val) : sqlMax l = Val.null ∨ sqlMax l ∈ l := by
  induction l with
  | nil => exact Or.inl rfl
  | cons v vs ih =>
    simp only [sqlMax]
    by_cases hv : v = Val.null
    · rw [if_pos hv]
      rcases ih with h | h
      · exact Or.inl h
      · exact Or.inr (List.mem_cons_of_mem v h)
    · rw [if_neg hv]
      by_cases hm : sqlMax vs = Val.null
      · rw [if_pos hm]; exact Or.inr (List.mem_cons_self v vs)
      · rw [if_neg hm]
        by_cases hle : valLe v (sqlMax vs) = true
        · rw [if_pos hle]
          rcases ih with h | h
          · exact absurd h hm
          · exact Or.inr (List.mem_cons_of_mem v h)
        · rw [if_neg hle]; exact Or.inr (List.mem_cons_self v vs)

/-- `MAX` of a column bounds every non-NULL value of the column. -/
theorem sqlMax_ub (l : List Val) :
    ∀ v ∈ l, v ≠ Val.null → valLe v (sqlMax l) = true := by
  induction l with
  | nil => intro v hv; cases hv
  | cons x xs ih =>
    intro v hv hvn
    simp only [sqlMax]
    rcases List.mem_cons.mp hv with rfl | hmem
    · rw [if_neg hvn]
      by_cases hm : sqlMax xs = Val.null
      · rw [if_pos hm]; exact valLe_refl v hvn
      · rw [if_neg hm]
        by_cases hle : valLe v (sqlMax xs) = true
        · rw [if_pos hle]; exact hle
        · rw [if_neg hle]; exact valLe_refl v hvn
    · have hvm : valLe v (sqlMax xs) = true := ih v hmem hvn
      by_cases hx : x = Val.null
      · rw [if_pos hx]; exact hvm
      · rw [if_neg hx]
        by_cases hm : sqlMax xs = Val.null
        · exact absurd ((sqlMax_eq_null xs).mp hm v hmem) hvn
        · rw [if_neg hm]
          by_cases hle : valLe x (sqlMax xs) = true
          · rw [if_pos hle]; exact hvm
          · rw [if_neg hle]
            have h2 : valLe (sqlMax xs) x = true := by
              rcases valLe_total (sqlMax xs) x hm hx with h | h
              · exact h
              · exact absurd h hle
            exact valLe_trans v (sqlMax xs) x hvm h2

/-- Following the spec's words (§4.5): the set of device identifiers
present in the table — the distinct non-NULL `FD_INFO_SN` values. -/
def specDeviceSet (cols : List String) (rows : List RowT) : Finset Val :=
  (rows.map (colVal cols "FD_INFO_SN")).toFinset.filter (fun v => v ≠ Val.null)

/-- Following the spec's words (§4.5): the set of device identifiers
having at least one reading at or above the threshold, over the table's
entire contents. -/
def specBreachSet (cols : List String) (rows : List RowT) (th : Int) : Finset Val :=
  (rows.map (colVal cols "FD_INFO_SN")).toFinset.filter
    (fun v => v ≠ Val.null ∧ ∃ r ∈ rows,
      colVal cols "FD_INFO_SN" r = v ∧ tempGE (colVal cols "FD_TEMPERATURE" r) th = true)

/-- `COUNT(DISTINCT -)` counts exactly the set of distinct non-NULL
values. -/
theorem distinctCount_eq_card (vs : List Val) :
    distinctCount vs = (vs.toFinset.filter (fun v => v ≠ Val.null)).card := by
  unfold distinctCount
  rw [← List.card_toFinset, List.toFinset_filter]
  congr 1
  ext v
  simp

/-- The `deviceCount` aggregate of `update_summary` equals the spec's
device-set cardinality. -/
theorem summarize_deviceCount (cols : List String) (rows : List RowT) (th : Int) :
    (summarize cols rows th).deviceCount = (specDeviceSet cols rows).card :=
  distinctCount_eq_card (rows.map (colVal cols "FD_INFO_SN"))

/-- The `warn_count` aggregate of `update_summary` — distinct devices
among the breaching rows — equals the spec's breach-set cardinality —
distinct devices having at least one breaching row. -/
theorem summarize_warnCount (cols : List String) (rows : List RowT) (th : Int) :
    (summarize cols rows th).warnCount = (specBreachSet cols rows th).card := by
  show distinctCount
      ((rows.filter (fun r => tempGE (colVal cols "FD_TEMPERATURE" r) th)).map
        (colVal cols "FD_INFO_SN"))
    = (specBreachSet cols rows th).card
  rw [distinctCount_eq_card]
  congr 1
  ext v
  simp only [specBreachSet, Finset.mem_filter, List.mem_toFinset, List.mem_map,
    List.mem_filter]
  constructor
  · rintro ⟨⟨r, ⟨hr, hb⟩, rfl⟩, hnn⟩
    exact ⟨⟨r, hr, rfl⟩, hnn, r, hr, rfl, hb⟩
  · rintro ⟨_, hnn, r, hr, hv, hb⟩
    exact ⟨⟨r, ⟨hr, hb⟩, hv⟩, hnn⟩

/-- After a merge with a non-empty fetched batch, `sync_table` persists
exactly the freshly recomputed summary for the table, computed over the
whole merged table. -/
theorem sync_table_merge_summary (rt : RemoteTable) (db : LocalDB)
    (name wm today : String) (th : Int) (tbl : Table)
    (hl : db.tbls.lookup name = some tbl)
    (hne : fetchSince rt wm ≠ []) :
    (sync_table true rt db name wm th today).1.summary
      = upsertA name
          (summarize tbl.cols (insertRows tbl.pk tbl.rows (fetchSince rt wm)) th)
          db.summary := by
  have he : ensure_table db name rt = db := by
    unfold ensure_table
    rw [hl]
  have hie : (fetchSince rt wm).isEmpty = false := by
    cases hfe : fetchSince rt wm with
    | nil => exact absurd hfe hne
    | cons a l => rfl
  simp [sync_table, he, hie, hl, update_summary]

/-- C8.  After a merge that added rows, the persisted summary row for the
table is exactly the one recomputed over the table's entire merged
contents: its `deviceCount` is the number of distinct (non-NULL) device
identifiers in the whole table, its `warnCount` is the number of distinct
device identifiers having at least one reading at or above the threshold
over the whole table (not just the new batch), and its `lastTime` is the
maximum timestamp of the whole table (an upper bound on every non-NULL
timestamp, and itself one of the table's timestamps unless all are
NULL). -/
theorem c8_summary_whole_table (rt : RemoteTable) (db : LocalDB) (name : String)
    (tbl : Table) (wm today : String) (th : Int)
    (hl : db.tbls.lookup name = some tbl)
    (hne : fetchSince rt wm ≠ []) :
    ((sync_table true rt db name wm th today).1.summary.lookup name
        = some (summarize tbl.cols (insertRows tbl.pk tbl.rows (fetchSince rt wm)) th))
    ∧ (summarize tbl.cols (insertRows tbl.pk tbl.rows (fetchSince rt wm)) th).deviceCount
        = (specDeviceSet tbl.cols (insertRows tbl.pk tbl.rows (fetchSince rt wm))).card
    ∧ (summarize tbl.cols (insertRows tbl.pk tbl.rows (fetchSince rt wm)) th).warnCount
        = (specBreachSet tbl.cols (insertRows tbl.pk tbl.rows (fetchSince rt wm)) th).card
    ∧ (∀ r ∈ insertRows tbl.pk tbl.rows (fetchSince rt wm),
        colVal tbl.cols "FD_LAST_TM" r ≠ Val.null →
        valLe (colVal tbl.cols "FD_LAST_TM" r)
            (summarize tbl.cols (insertRows tbl.pk tbl.rows (fetchSince rt wm)) th).lastTime
          = true)
    ∧ ((summarize tbl.cols (insertRows tbl.pk tbl.rows (fetchSince rt wm)) th).lastTime
          = Val.null
        ∨ (summarize tbl.cols (insertRows tbl.pk tbl.rows (fetchSince rt wm)) th).lastTime
            ∈ (insertRows tbl.pk tbl.rows (fetchSince rt wm)).map
                (colVal tbl.cols "FD_LAST_TM")) := by
  refine ⟨?_, summarize_deviceCount _ _ _, summarize_warnCount _ _ _, ?_, ?_⟩
  · rw [sync_table_merge_summary rt db name wm today th tbl hl hne]
    exact upsertA_lookup name _ db.summary
  · intro r hr hnn
    exact sqlMax_ub
      ((insertRows tbl.pk tbl.rows (fetchSince rt wm)).map (colVal tbl.cols "FD_LAST_TM"))
      (colVal tbl.cols "FD_LAST_TM" r) (List.mem_map_of_mem _ hr) hnn
  · exact sqlMax_mem
      ((insertRows tbl.pk tbl.rows (fetchSince rt wm)).map (colVal tbl.cols "FD_LAST_TM"))

/-- Witness for C8: the spec's own §8 scenario — threshold 80, an empty
mirrored table, two unseen rows for one device at 50° and 85° today; the
persisted summary is (deviceCount 1, lastSeen the later timestamp,
warnCount 1). -/
theorem c8_summary_whole_table_witness :
    ((sync_table true
        ⟨["FD_INFO_SN", "FD_TEMPERATURE", "FD_LAST_TM"], [2],
          [[Val.str "dev1", Val.int 50, Val.str "2026-10-12 01:00:00"],
           [Val.str "dev1", Val.int 85, Val.str "2026-10-12 02:00:00"]]⟩
        ⟨[("tb_tt_tboard_mo1", ⟨["FD_INFO_SN", "FD_TEMPERATURE", "FD_LAST_TM"], [2], []⟩)], []⟩
        "tb_tt_tboard_mo1" "2000-01-01 00:00:00" 80 "2026-10-12").1.summary.lookup
          "tb_tt_tboard_mo1"
      = some (summarize ["FD_INFO_SN", "FD_TEMPERATURE", "FD_LAST_TM"]
          (insertRows [2] []
            (fetchSince
              ⟨["FD_INFO_SN", "FD_TEMPERATURE", "FD_LAST_TM"], [2],
                [[Val.str "dev1", Val.int 50, Val.str "2026-10-12 01:00:00"],
                 [Val.str "dev1", Val.int 85, Val.str "2026-10-12 02:00:00"]]⟩
              "2000-01-01 00:00:00")) 80))
    ∧ summarize ["FD_INFO_SN", "FD_TEMPERATURE", "FD_LAST_TM"]
        (insertRows [2] []
          (fetchSince
            ⟨["FD_INFO_SN", "FD_TEMPERATURE", "FD_LAST_TM"], [2],
              [[Val.str "dev1", Val.int 50, Val.str "2026-10-12 01:00:00"],
               [Val.str "dev1", Val.int 85, Val.str "2026-10-12 02:00:00"]]⟩
            "2000-01-01 00:00:00")) 80
      = ⟨1, Val.str "2026-10-12 02:00:00", 1⟩ :=
  ⟨(c8_summary_whole_table
      ⟨["FD_INFO_SN", "FD_TEMPERATURE", "FD_LAST_TM"], [2],
        [[Val.str "dev1", Val.int 50, Val.str "2026-10-12 01:00:00"],
         [Val.str "dev1", Val.int 85, Val.str "2026-10-12 02:00:00"]]⟩
      ⟨[("tb_tt_tboard_mo1", ⟨["FD_INFO_SN", "FD_TEMPERATURE", "FD_LAST_TM"], [2], []⟩)], []⟩
      "tb_tt_tboard_mo1"
      ⟨["FD_INFO_SN", "FD_TEMPERATURE", "FD_LAST_TM"], [2], []⟩
      "2000-01-01 00:00:00" "2026-10-12" 80 (by decide) (by decide)).1,
   by decide⟩

/- ### C5: schema-translation idempotence -/

/-- A deletion scan over a string in which nothing matches is the
identity, for any fuel. -/
theorem subAllAux_id (m : List Char → Option (List Char)) (s : List Char)
    (h : hasMatch m s = false) : ∀ fuel, subAllAux m fuel s = s := by
  intro fuel
  induction fuel generalizing s with
  | zero => rfl
  | succ n ih =>
    cases s with
    | nil => rfl
    | cons c cs =>
      have h1 : m (c :: cs) = none := by
        cases hm : m (c :: cs) with
        | none => rfl
        | some r => simp [hasMatch, hm] at h
      have h2 : hasMatch m cs = false := by
        cases hm2 : hasMatch m cs
        · rfl
        · simp [hasMatch, hm2] at h
      simp only [subAllAux, h1]
      rw [ih cs h2]

/-- `re.sub`/`str.replace` deletion with no match anywhere is the
identity. -/
theorem subAll_id (m : List Char → Option (List Char)) (s : List Char)
    (h : hasMatch m s = false) : subAll m s = s :=
  subAllAux_id m s h s.length

/-- Truncation at a token that occurs nowhere is the identity. -/
theorem truncAt_id (pat : List Char) (s : List Char)
    (h : hasMatch (litMatch pat) s = false) : truncAt pat s = s := by
  induction s with
  | nil => rfl
  | cons c cs ih =>
    have h1 : litMatch pat (c :: cs) = none := by
      cases hm : litMatch pat (c :: cs) with
      | none => rfl
      | some r => simp [hasMatch, hm] at h
    have h2 : hasMatch (litMatch pat) cs = false := by
      cases hm2 : hasMatch (litMatch pat) cs
      · rfl
      · simp [hasMatch, hm2] at h
    cases hp : List.isPrefixOf pat (c :: cs) with
    | true => simp [litMatch, hp] at h1
    | false =>
      simp only [truncAt, hp, Bool.false_eq_true, if_false]
      rw [ih h2]

/-- Dropping leading whitespace from a string with none is the
identity. -/
theorem dropWhile_eq_self_of_noLead (l : List Char) (h : noLeadWS l = true) :
    l.dropWhile isPySpace = l := by
  cases l with
  | nil => rfl
  | cons c cs =>
    have hc : isPySpace c = false := by simpa [noLeadWS] using h
    simp [List.dropWhile_cons, hc]

/-- A string with no trailing whitespace reverses to one with no leading
whitespace. -/
theorem noLead_reverse (s : List Char) (h : noTrailWS s = true) :
    noLeadWS s.reverse = true := by
  unfold noTrailWS at h
  unfold noLeadWS
  cases hr : s.reverse with
  | nil => rfl
  | cons c cs =>
    have hg : s.getLast? = some c := by
      rw [← List.head?_reverse, hr]
      rfl
    rw [hg] at h
    exact h

/-- `str.strip()` of a string with no whitespace at either end is the
identity. -/
theorem pyStrip_id (s : List Char) (h1 : noLeadWS s = true)
    (h2 : noTrailWS s = true) : pyStrip s = s := by
  unfold pyStrip
  rw [dropWhile_eq_self_of_noLead s h1,
    dropWhile_eq_self_of_noLead s.reverse (noLead_reverse s h2),
    List.reverse_reverse]

/-- A string on which every translation stage finds nothing to do is a
fixed point of the translation. -/
theorem translateL_fixed (s : List Char) (h : translationClean s = true) :
    translateL s = s := by
  unfold translationClean at h
  simp only [Bool.and_eq_true, Bool.not_eq_true'] at h
  obtain ⟨⟨⟨⟨⟨⟨⟨⟨⟨⟨h1, h2⟩, h3⟩, h4⟩, h5⟩, h6⟩, h7⟩, h8⟩, h9⟩, h10⟩, h11⟩ := h
  simp only [translateL]
  rw [truncAt_id _ _ h1, truncAt_id _ _ h2, truncAt_id _ _ h3, truncAt_id _ _ h4,
    subAll_id _ _ h5, pyStrip_id _ h6 h7, subAll_id _ _ h8, subAll_id _ _ h9,
    subAll_id _ _ h10, subAll_id _ _ h11]

/-- C5 counterexample.  Translating `"x COLLATE y"` removes the collation
clause but leaves the space before it, producing `"x "`; translating that
output again strips the trailing space to `"x"`.  So re-running the
translation on an already-translated definition is not a no-op. -/
theorem c5_counterexample :
    translateCreateSql "x COLLATE y" = "x "
    ∧ translateCreateSql (translateCreateSql "x COLLATE y") = "x"
    ∧ translateCreateSql (translateCreateSql "x COLLATE y")
        ≠ translateCreateSql "x COLLATE y" := by decide

/-- C5 as amended: the translation is idempotent on every definition
whose translated form is clean — contains none of the four truncation
tokens, no `InnoDB`, no backtick, no whitespace at either end, and no
remaining comment-clause, `USING BTREE`, or collation-clause match — but
not in general: a removal stage can leave behind whitespace (or expose a
token) that only a second application removes, as in the
counterexample. -/
theorem c5_translation_conditional_idempotent (s : String)
    (h : translationClean (translateCreateSql s).data = true) :
    translateCreateSql (translateCreateSql s) = translateCreateSql s := by
  have hfix : translateL ((translateCreateSql s).data) = (translateCreateSql s).data :=
    translateL_fixed _ h
  show (⟨translateL ((translateCreateSql s).data)⟩ : String) = translateCreateSql s
  rw [hfix]

set_option maxHeartbeats 2000000 in
/-- Witness for C5's amended theorem: a realistic `SHOW CREATE TABLE`
output whose translation is clean, hence a fixed point. -/
theorem c5_translation_conditional_idempotent_witness :
    translationClean
        (translateCreateSql
          "CREATE TABLE t (a INT) ENGINE=InnoDB DEFAULT CHARSET=utf8").data = true
    ∧ translateCreateSql
          (translateCreateSql
            "CREATE TABLE t (a INT) ENGINE=InnoDB DEFAULT CHARSET=utf8")
        = translateCreateSql
            "CREATE TABLE t (a INT) ENGINE=InnoDB DEFAULT CHARSET=utf8" :=
  ⟨by decide,
   c5_translation_conditional_idempotent
     "CREATE TABLE t (a INT) ENGINE=InnoDB DEFAULT CHARSET=utf8" (by decide)⟩
